import Mathlib

/-!
Verification of the browser-automation agent core.

This file gives a shallow embedding, in Lean 4, of the agent control loop and
its supporting state as implemented in `src/agent/browser_agent.py` and
`src/infrastructure/tools.py`:

* the auto-finish text heuristic (`_should_auto_finish_from_text`),
* the destructive-action gate (`_is_potentially_destructive`),
* the history manager (`_apply_history_window`, `_summarize_history`),
* page distillation and element lookup (`analyze_page`, `_get_element`),
* click resolution (`click_element`),
* tool dispatch (`_dispatch_tool`),
* the agent loop (`run`).

External effects (the completion service, the live page, the operator console)
are modeled as explicit oracles passed in as parameters: the completion service
is a function from the iteration number to a response, the page is a record of
query/click outcomes, and the operator answer is a string.  Exceptions raised
by those collaborators are modeled as `Option`/`Except` outcomes.  Machine
strings are Lean `String`s; Python `str.lower()` is modeled on the ASCII and
Russian Cyrillic alphabets that occur in the code.
-/

/-- Models Python `str.lower()` on one character for the alphabets used by the
program: ASCII `A`-`Z`, Cyrillic `А`-`Я` (U+0410..U+042F) and `Ё` (U+0401).
All other characters are returned unchanged. -/
def pyLowerChar (c : Char) : Char :=
  if 65 ≤ c.toNat ∧ c.toNat ≤ 90 then Char.ofNat (c.toNat + 32)
  else if 0x410 ≤ c.toNat ∧ c.toNat ≤ 0x42F then Char.ofNat (c.toNat + 32)
  else if c.toNat = 0x401 then Char.ofNat 0x451
  else c

/-- Models Python `str.lower()` (restricted to the alphabets of `pyLowerChar`). -/
def pyLower (s : String) : String :=
  ⟨s.data.map pyLowerChar⟩

/-- Models Python `str.strip()` (and JS `trim()`): remove leading and
trailing whitespace. -/
def pyStrip (s : String) : String :=
  ⟨((s.data.dropWhile Char.isWhitespace).reverse.dropWhile Char.isWhitespace).reverse⟩

/-- Boolean test: the first list is a prefix of the second. -/
def isPrefB : List Char → List Char → Bool
  | [], _ => true
  | _ :: _, [] => false
  | a :: as, b :: bs => a == b && isPrefB as bs

/-- Boolean test: the first list occurs contiguously inside the second. -/
def isInfB (needle : List Char) : List Char → Bool
  | [] => isPrefB needle []
  | b :: bs => isPrefB needle (b :: bs) || isInfB needle bs

/-- Models the Python membership test `needle in hay` on strings. -/
def containsSub (hay needle : String) : Bool :=
  isInfB needle.data hay.data

/-- Embeds `BrowserAgent._truncate_content`. -/
def truncateContent (content : String) (maxLen : Nat) : String :=
  if content.length ≤ maxLen then content
  else content.take maxLen ++ "...<truncated>"

/-- The fixed whitelist `finish_markers` of `_should_auto_finish_from_text`. -/
def finishMarkers : List String :=
  ["задача выполнена",
   "задача полностью выполнена",
   "задача целиком выполнена",
   "задача решена",
   "цель достигнута",
   "цель задачи достигнута"]

/-- Embeds `BrowserAgent._should_auto_finish_from_text`: the agent considers
the task finished only when the lowercased text contains one of the exact
whitelisted completion phrases. -/
def shouldAutoFinishFromText (text : String) : Bool :=
  if text == "" then false
  else
    let t := pyLower text
    finishMarkers.any (fun m => containsSub t m)

/-- A parameter value of a tool invocation (a JSON scalar, as Python passes
them into `_dispatch_tool`). -/
inductive PVal where
  | str (s : String)
  | int (n : Int)
  | bool (b : Bool)
  | null
deriving DecidableEq

/-- Tool parameters: the `params` dict of a tool invocation. -/
def Params := List (String × PVal)
deriving DecidableEq

/-- Models `params.get(key)` (`None` when the key is absent). -/
def pget (params : Params) (key : String) : Option PVal :=
  match params with
  | [] => none
  | (k, v) :: rest => if k == key then some v else pget rest key

/-- Models Python `str(x or "")` for an optional parameter value: `None` and
falsy values give `""`. -/
def pyOrStr : Option PVal → String
  | none => ""
  | some (.str s) => s
  | some (.int n) => if n = 0 then "" else toString n
  | some (.bool b) => if b then "True" else ""
  | some .null => ""

/-- Models `int(x)` under `try/except (TypeError, ValueError)`: `none` is the
exception path.  (Python also parses surrounding whitespace in strings; the
agent only ever passes bare integers or digit strings.) -/
def parseIntOpt : Option PVal → Option Int
  | none => none
  | some (.str s) => s.toInt?
  | some (.int n) => some n
  | some (.bool b) => some (if b then 1 else 0)
  | some .null => none

/-- Models `int(params.get(key))` under the `try/except` of
`_is_potentially_destructive`. -/
def parseIntParam (params : Params) (key : String) : Option Int :=
  parseIntOpt (pget params key)

/-- Embeds `core.models.DistilledElement`. -/
structure DistilledElement where
  id : Int
  agent_id : String
  tag : String
  role : Option String
  input_type : Option String
  text : String
  placeholder : Option String
  aria_label : Option String
  href : Option String
  location : String
deriving DecidableEq

/-- The `dangerous_keywords` list of `_is_potentially_destructive`, verbatim. -/
def dangerousKeywords : List String :=
  ["оплатить", "оплата", "заплатить",
   "pay", "payment", "checkout", "purchase",
   "buy now", "buy", "order", "place order",
   "удалить", "удаление", "delete", "remove",
   "trash", "очистить", "clear all", "очистка",
   "отправить", "submit", "send",
   "публиковать", "publish", "post",
   "unsubscribe", "отписаться",
   "архивировать", "archive"]

/-- The element label derived for a `click_element` target inside
`_is_potentially_destructive`:
`" ".join([(el.text or ""), (el.aria_label or ""), (el.placeholder or ""), (el.href or "")]).lower()`. -/
def clickElementLabel (el : DistilledElement) : String :=
  pyLower (String.intercalate " "
    [el.text, el.aria_label.getD "", el.placeholder.getD "", el.href.getD ""])

/-- Embeds `BrowserAgent._is_potentially_destructive`.  `confirmActions` is
`config.confirm_actions`; `lastElements` is `executor.last_elements`. -/
def isPotentiallyDestructive (confirmActions : Bool)
    (lastElements : List DistilledElement) (name : String) (params : Params) : Bool :=
  if confirmActions == false then false
  else if (name == "click_element" || name == "click_text") == false then false
  else
    let label :=
      if name == "click_text" then pyLower (pyOrStr (pget params "text"))
      else
        match parseIntParam params "element_id" with
        | none => ""
        | some targetId =>
          match lastElements.find? (fun el => el.id == targetId) with
          | some el => clickElementLabel el
          | none => ""
    if label == "" then false
    else dangerousKeywords.any (fun kw => containsSub label kw)

/-- A JSON-like value: tool results (the `ResultEnvelope` dicts built by
`ToolExecutor._result` and by `_dispatch_tool`) are modeled as such values. -/
inductive JVal where
  | null
  | bool (b : Bool)
  | num (n : Int)
  | str (s : String)
  | arr (xs : List JVal)
  | obj (fields : List (String × JVal))

/-- First-match key lookup in an object field list (Python dict access). -/
def lookupField : List (String × JVal) → String → Option JVal
  | [], _ => none
  | (k, v) :: rest, key => if k == key then some v else lookupField rest key

/-- Models `d.get(key)` on a result dict; `none` both for a missing key and
for a non-dict value. -/
def jget (j : JVal) (key : String) : Option JVal :=
  match j with
  | .obj fields => lookupField fields key
  | _ => none

/-- Python truthiness of a JSON value. -/
def jTruthy : JVal → Bool
  | .null => false
  | .bool b => b
  | .num n => n != 0
  | .str s => s != ""
  | .arr xs => xs.isEmpty == false
  | .obj fields => fields.isEmpty == false

/-- Models Python `a or b` on JSON values. -/
def pyOr2 (a b : JVal) : JVal :=
  if jTruthy a then a else b

/-- Lift an optional string to JSON (`None` becomes `null`). -/
def jOfOptStr : Option String → JVal
  | none => .null
  | some s => .str s

/-- Embeds `ToolExecutor._result`: the uniform result envelope, with every
key always present and `None` defaults rendered as `null`. -/
def mkResult (success : Bool) (action message : String)
    (errorType error suggestion : Option String) (data : Option JVal) : JVal :=
  .obj [("success", .bool success),
        ("action", .str action),
        ("message", .str message),
        ("error_type", jOfOptStr errorType),
        ("error", jOfOptStr error),
        ("suggestion", jOfOptStr suggestion),
        ("data", (data.getD .null))]

/-- A content block of a conversation turn.  Completion-service responses
carry `text` and `toolUse` blocks; the agent adds `toolResult` blocks.  The
source serializes the tool result payload to a JSON string before appending
it; since the serialization affects neither the control flow nor the history
manager (which inspects only block types), the payload is kept structured. -/
inductive Block where
  | text (s : String)
  | toolUse (id name : String) (input : Params)
  | toolResult (id : String) (payload : JVal)

/-- The `content` of a conversation turn: either a plain string (the initial
task) or a list of blocks. -/
inductive Content where
  | str (s : String)
  | blocks (bs : List Block)

/-- A conversation turn (`{"role": ..., "content": ...}`). -/
structure Msg where
  role : String
  content : Content

/-- Is this block a `tool_result` block? -/
def blockIsToolResult : Block → Bool
  | .toolResult _ _ => true
  | _ => false

/-- Is this block a `tool_use` block? -/
def blockIsToolUse : Block → Bool
  | .toolUse _ _ _ => true
  | _ => false

/-- Is this block a `text` block? -/
def blockIsText : Block → Bool
  | .text _ => true
  | _ => false

/-- The `is_tool_result_msg` test of `_apply_history_window`: the content is a
list and some member is a `tool_result` block. -/
def isToolResultMsg (m : Msg) : Bool :=
  match m.content with
  | .str _ => false
  | .blocks bs => bs.any blockIsToolResult

/-- The `has_tool_use` test of `_apply_history_window` on the previous kept
turn. -/
def msgHasToolUse (m : Msg) : Bool :=
  match m.content with
  | .str _ => false
  | .blocks bs => bs.any blockIsToolUse

/-- The structural-repair pass at the end of `_apply_history_window`: walk the
pruned turns keeping track of the previously kept turn (`prev`), and drop any
tool-result turn that is not immediately preceded by a kept assistant turn
carrying a `tool_use` block. -/
def historyClean : List Msg → Option Msg → List Msg
  | [], _ => []
  | m :: ms, prev =>
    if isToolResultMsg m then
      match prev with
      | none => historyClean ms prev
      | some p =>
        if p.role == "assistant" && msgHasToolUse p then m :: historyClean ms (some m)
        else historyClean ms prev
    else m :: historyClean ms (some m)

/-- The summary turn inserted by `_apply_history_window`. -/
def mkSummaryMsg (summary : String) : Msg :=
  ⟨"assistant", .blocks [.text ("[Сводка]\n" ++ summary)]⟩

/-- Embeds `BrowserAgent._apply_history_window`.  `sumFn` abstracts
`_summarize_history` (older turns and prior summary to new summary); the
function returns the new message list together with the new value of
`self.summary`. -/
def applyHistoryWindow (historyWindow : Int) (sumFn : List Msg → String → String)
    (summary : String) (messages : List Msg) : List Msg × String :=
  let window : Nat := (max 3 historyWindow).toNat
  if messages.length ≤ window then (messages, summary)
  else
    match messages with
    | [] => ([], summary)
    | first :: rest =>
      if rest.length ≤ window then (first :: rest, summary)
      else
        let older := rest.take (rest.length - window)
        let recent := rest.drop (rest.length - window)
        let newSummary := sumFn older summary
        let pruned := first :: mkSummaryMsg newSummary :: recent
        (historyClean pruned none, newSummary)

/-- The text parts of a completion response, as `_summarize_history` collects
them (`[blk.text for blk in response.content if blk.type == "text"]`). -/
def textParts (content : List Block) : List String :=
  content.filterMap (fun b => match b with | .text s => some s | _ => none)

/-- Embeds `BrowserAgent._summarize_history`.  The completion-service call is
modeled by its outcome: `none` is the exception path (`except Exception`),
`some content` the returned content blocks. -/
def summarizeHistory (response : Option (List Block)) (priorSummary : String) : String :=
  match response with
  | none => priorSummary
  | some content =>
    let newSummary := pyStrip (String.intercalate "\n" (textParts content))
    if newSummary == "" then priorSummary else newSummary

/-- A candidate interactive DOM node as seen by the distillation script of
`analyze_page` (after the dialog-priority reordering, which fixes the scan
order of `allNodes`).  `rawText` is `el.innerText || el.value || ""` before
trimming; the remaining fields are the attribute reads of the script. -/
structure PageNode where
  visible : Bool
  tag : String
  role : Option String
  inputType : Option String
  rawText : String
  placeholder : Option String
  ariaLabel : Option String
  href : Option String
  location : String

/-- One element of the array returned by the distillation script. -/
structure RawDistilled where
  agentId : String
  tag : String
  role : Option String
  inputType : Option String
  text : String
  placeholder : Option String
  ariaLabel : Option String
  href : Option String
  location : String

/-- Embeds the in-page distillation script of `analyze_page`: skip invisible
nodes, stamp each kept node with `stamp-id` where `id` counts kept nodes,
truncate the trimmed text to 120 characters, and stop as soon as 200 elements
have been collected. -/
def distillNodes (stamp : String) : List PageNode → Nat → Nat → List RawDistilled
  | [], _, _ => []
  | n :: ns, id, count =>
    if n.visible == false then distillNodes stamp ns id count
    else
      let r : RawDistilled :=
        { agentId := stamp ++ "-" ++ toString id, tag := n.tag, role := n.role,
          inputType := n.inputType, text := (pyStrip n.rawText).take 120,
          placeholder := n.placeholder, ariaLabel := n.ariaLabel, href := n.href,
          location := n.location }
      if 200 ≤ count + 1 then [r]
      else r :: distillNodes stamp ns (id + 1) (count + 1)

/-- Models Python `enumerate` starting at `n`. -/
def enumFrom (n : Nat) : List α → List (Nat × α)
  | [] => []
  | a :: as => (n, a) :: enumFrom (n + 1) as

/-- The `DistilledElement(...)` construction in the enumeration loop of
`analyze_page`: the element id is the enumeration index. -/
def mkDistilled (p : Nat × RawDistilled) : DistilledElement :=
  { id := (p.1 : Int), agent_id := p.2.agentId, tag := p.2.tag, role := p.2.role,
    input_type := p.2.inputType, text := p.2.text, placeholder := p.2.placeholder,
    aria_label := p.2.ariaLabel, href := p.2.href, location := p.2.location }

/-- An exception raised by a browser-driver call: Playwright distinguishes
`TimeoutError` from other exceptions, and `click_element` handles them
differently. -/
inductive PyErr where
  | timeout (msg : String)
  | other (msg : String)

/-- The message carried by an exception (`str(exc)`). -/
def pyErrMsg : PyErr → String
  | .timeout m => m
  | .other m => m

/-- The live page and browser driver, modeled as an oracle record:
`markerCount` is `page.locator('[data-agent-id=...]').count()`;
`analyzeNodes` is the outcome of the distillation script evaluation
(`.error` is the exception path of `analyze_page`); `clickMarker` and
`clickByText` are the outcomes of the corresponding click calls (`none` is
success); `url`/`title` are the page address and title reads. -/
structure PageEnv where
  markerCount : String → Nat
  analyzeNodes : Except String (List PageNode)
  stamp : String
  clickMarker : String → Option PyErr
  clickByText : String → Option PyErr
  url : String
  title : String

/-- Embeds `ToolExecutor.analyze_page`: returns the result envelope and the
new value of `executor.last_elements` (unchanged on the exception path). -/
def analyzePage (env : PageEnv) (lastElements : List DistilledElement)
    (responseFormat : String) : JVal × List DistilledElement :=
  match env.analyzeNodes with
  | .error exc =>
    (mkResult false "analyze_page" "Failed to analyze page" (some "AnalysisError")
       (some exc)
       (some "Try: 1) wait_for_element(); 2) close_modal(); 3) analyze_page() again.")
       none,
     lastElements)
  | .ok nodes =>
    let elements := (enumFrom 0 (distillNodes env.stamp nodes 0 0)).map mkDistilled
    let condensed : JVal :=
      if responseFormat == "concise" then
        .arr ((elements.take 20).map (fun el =>
          .obj [("id", .num el.id),
                ("type", pyOr2 (jOfOptStr el.input_type) (.str el.tag)),
                ("text", pyOr2 (.str el.text)
                   (pyOr2 (jOfOptStr el.aria_label) (jOfOptStr el.placeholder))),
                ("location", .str el.location)]))
      else
        .arr (elements.map (fun el =>
          .obj [("id", .num el.id),
                ("type", pyOr2 (jOfOptStr el.input_type) (.str el.tag)),
                ("text", .str el.text),
                ("placeholder", jOfOptStr el.placeholder),
                ("aria_label", jOfOptStr el.aria_label),
                ("href", jOfOptStr el.href),
                ("location", .str el.location)]))
    (mkResult true "analyze_page"
       ("Distilled " ++ toString elements.length ++ " elements") none none none
       (some (.obj
         [("page_title", .str env.title),
          ("url", .str env.url),
          ("elements", condensed),
          ("note", .str (toString elements.length ++
            " elements distilled. Use click_element(id) / type_text(id, text)."))])),
     elements)

/-- Embeds `ToolExecutor._get_element`: first element whose id matches. -/
def getElement (lastElements : List DistilledElement) (elementId : Int) :
    Option DistilledElement :=
  lastElements.find? (fun el => el.id == elementId)

/-- A browser side effect performed while resolving a click, recorded for the
fallback-path observability arguments. -/
inductive Eff where
  | analyzeCall
  | markerClick (agentId : String)
  | textClick (text : String)
deriving DecidableEq

/-- The `_ok` success envelope of `click_element`. -/
def clickOkEnv (env : PageEnv) (elementId : Int) (suffix : String) : JVal :=
  mkResult true "click_element" ("Clicked element " ++ toString elementId ++ suffix)
    none none none
    (some (.obj [("url", .str env.url), ("element_id", .num elementId)]))

/-- The `except TimeoutError` handler of `click_element`: retry once through
the visible-text fallback when the element had non-empty captured text. -/
def clickTimeoutHandler (env : PageEnv) (lastElements : List DistilledElement)
    (element : DistilledElement) (elementId : Int) (exc : String) (trace : List Eff) :
    JVal × List DistilledElement × List Eff :=
  let text := pyStrip element.text
  if text == "" then
    (mkResult false "click_element" "Timeout clicking element" (some "Timeout")
       (some exc)
       (some "Try: 1) scroll_page(); 2) close_modal(); 3) analyze_page() and use click_text().")
       none,
     lastElements, trace)
  else
    match env.clickByText text with
    | none =>
      (clickOkEnv env elementId " (via text fallback after timeout)",
       lastElements, trace ++ [.textClick text])
    | some exc2 =>
      (mkResult false "click_element" "Timeout clicking element (id & text fallback failed)"
         (some "Timeout") (some (exc ++ "; text_fallback_error=" ++ pyErrMsg exc2))
         (some "Try scroll_page()/close_modal(), then analyze_page() and click_text().")
         none,
       lastElements, trace ++ [.textClick text])

/-- The `except Exception` handler of `click_element`. -/
def clickErrorEnv (exc : String) : JVal :=
  mkResult false "click_element" "Failed to click element" (some "ClickError") (some exc)
    (some "Try: 1) scroll_page(); 2) close_modal(); 3) analyze_page() and retry click_element.")
    none

/-- Embeds `ToolExecutor.click_element`: resolve the id against the last
distillation, try the stable marker, then (on a regenerated DOM) a refreshed
id with identical text, then a visible-text fallback.  Returns the envelope,
the new `last_elements`, and the trace of browser effects performed. -/
def clickElement (env : PageEnv) (lastElements : List DistilledElement)
    (elementId : Int) : JVal × List DistilledElement × List Eff :=
  match getElement lastElements elementId with
  | none =>
    (mkResult false "click_element" "Unknown element ID" (some "ElementNotFound")
       (some "Unknown element ID. Call analyze_page() first.")
       (some "Call analyze_page() to refresh IDs, then retry with the new ID.") none,
     lastElements, [])
  | some element =>
    if env.markerCount element.agent_id == 0 then
      let ar := analyzePage env lastElements "detailed"
      if jTruthy ((jget ar.1 "success").getD .null) == false then
        (mkResult false "click_element" "Element disappeared and re-analyze_page() failed"
           (some "ClickError") none
           (some "Try analyze_page() manually and use search_elements()/click_text().")
           none,
         ar.2, [.analyzeCall])
      else
        let text := pyStrip element.text
        if text == "" then
          (mkResult false "click_element" "Element disappeared and has no stable text to match"
             (some "ElementNotFound") none
             (some "Run analyze_page() again and choose element by new ID.") none,
           ar.2, [.analyzeCall])
        else
          match ar.2.find? (fun el => pyStrip el.text == text) with
          | some el =>
            match env.clickMarker el.agent_id with
            | none =>
              (clickOkEnv env elementId " (via refreshed agent-id)",
               ar.2, [.analyzeCall, .markerClick el.agent_id])
            | some (.timeout exc) =>
              clickTimeoutHandler env ar.2 element elementId exc
                [.analyzeCall, .markerClick el.agent_id]
            | some (.other exc) =>
              (clickErrorEnv exc, ar.2, [.analyzeCall, .markerClick el.agent_id])
          | none =>
            match env.clickByText text with
            | none =>
              (clickOkEnv env elementId " (via text fallback)",
               ar.2, [.analyzeCall, .textClick text])
            | some exc2 =>
              (mkResult false "click_element"
                 ("Failed to click element by text \x27" ++ text ++ "\x27")
                 (some "ClickError") (some (pyErrMsg exc2))
                 (some "Try scroll_page()/close_modal(), then analyze_page() and click_text() manually.")
                 none,
               ar.2, [.analyzeCall, .textClick text])
    else
      match env.clickMarker element.agent_id with
      | none =>
        (clickOkEnv env elementId "", lastElements, [.markerClick element.agent_id])
      | some (.timeout exc) =>
        clickTimeoutHandler env lastElements element elementId exc
          [.markerClick element.agent_id]
      | some (.other exc) =>
        (clickErrorEnv exc, lastElements, [.markerClick element.agent_id])

/-- Lift a parameter value to JSON. -/
def pvalToJ : PVal → JVal
  | .str s => .str s
  | .int n => .num n
  | .bool b => .bool b
  | .null => .null

/-- Lift a parameter dict to JSON. -/
def paramsToJ (params : Params) : JVal :=
  .obj (params.map (fun p => (p.1, pvalToJ p.2)))

/-- The tool names handled by the dispatch chain of `_dispatch_tool`, in
source order. -/
def knownToolNames : List String :=
  ["analyze_page", "click_element", "type_text", "click_and_type", "click_text",
   "navigate_url", "take_screenshot", "wait_for_element", "search_elements",
   "validate_task_complete", "query_dom", "finish_task", "scroll_page",
   "switch_to_page", "go_back", "extract_text", "collect_elements",
   "switch_frame", "close_modal"]

/-- The name-to-handler chain of `_dispatch_tool` after the gate.  Executor
calls (including their per-branch argument coercion) are abstracted by
`exec`; the `finish_task` branch builds its result dict inline exactly as the
source does, and an unhandled name falls through to the bare
`{"error": ...}` dict. -/
def dispatchChain (exec : String → Params → JVal) (name : String) (params : Params) : JVal :=
  if name == "analyze_page" then exec "analyze_page" params
  else if name == "click_element" then exec "click_element" params
  else if name == "type_text" then exec "type_text" params
  else if name == "click_and_type" then exec "click_and_type" params
  else if name == "click_text" then exec "click_text" params
  else if name == "navigate_url" then exec "navigate_url" params
  else if name == "take_screenshot" then exec "take_screenshot" params
  else if name == "wait_for_element" then exec "wait_for_element" params
  else if name == "search_elements" then exec "search_elements" params
  else if name == "validate_task_complete" then exec "validate_task_complete" params
  else if name == "query_dom" then exec "query_dom" params
  else if name == "finish_task" then
    .obj [("success", .bool true), ("action", .str "finish_task"),
          ("message", .str "Task finished"),
          ("data", .obj [("summary", pvalToJ ((pget params "summary").getD (.str "")))])]
  else if name == "scroll_page" then exec "scroll_page" params
  else if name == "switch_to_page" then exec "switch_to_page" params
  else if name == "go_back" then exec "go_back" params
  else if name == "extract_text" then exec "extract_text" params
  else if name == "collect_elements" then exec "collect_elements" params
  else if name == "switch_frame" then exec "switch_frame" params
  else if name == "close_modal" then exec "close_modal" params
  else .obj [("error", .str ("Unknown tool \x27" ++ name ++ "\x27"))]

/-- Embeds `BrowserAgent._dispatch_tool`: run the destructive-action gate
first (`operatorAnswer` models the `input()` read, consulted only when the
gate fires), then dispatch through the name chain. -/
def dispatchTool (confirmActions : Bool) (lastElements : List DistilledElement)
    (operatorAnswer : String) (exec : String → Params → JVal)
    (name : String) (params : Params) : JVal :=
  if isPotentiallyDestructive confirmActions lastElements name params then
    let ans := pyLower (pyStrip operatorAnswer)
    if (ans == "y" || ans == "yes" || ans == "д" || ans == "да") == false then
      .obj [("success", .bool false), ("action", .str name),
            ("message", .str "Action cancelled by user"),
            ("error_type", .str "UserCancelled"),
            ("data", .obj [("params", paramsToJ params)])]
    else dispatchChain exec name params
  else dispatchChain exec name params

/-- A completion-service response: ordered content blocks plus a stop reason. -/
structure Response where
  content : List Block
  stop : String

/-- Embeds `BrowserAgent._serialize_blocks`: keep text and tool-use blocks,
drop everything else. -/
def serializeBlocks (blocks : List Block) : List Block :=
  blocks.filter (fun b => blockIsText b || blockIsToolUse b)

/-- The screenshot-payload stripping in `run`: for `take_screenshot` results
whose data carries a truthy `base64_png`, feed back a copy of the envelope
with that key removed. -/
def stripScreenshot (name : String) (result : JVal) : JVal :=
  if name == "take_screenshot" then
    match result with
    | .obj fields =>
      match lookupField fields "data" with
      | some (.obj dataFields) =>
        match lookupField dataFields "base64_png" with
        | some v =>
          if jTruthy v then
            .obj (fields.map (fun p =>
              if p.1 == "data" then
                ("data", .obj (dataFields.filter (fun q => (q.1 == "base64_png") == false)))
              else p))
          else result
        | none => result
      | _ => result
    | _ => result
  else result

/-- How the block-processing loop of one `run` iteration ends early:
auto-finish on a completion phrase, or a `finish_task` invocation. -/
inductive IterEnd where
  | autoFin (summary : String)
  | finTask (result : JVal)

/-- The tool-result block produced for one tool-use block (dispatch result
with screenshot payload stripped). -/
def toolResOf (dispatch : String → Params → JVal) : Block → Option Block
  | .toolUse id name input => some (.toolResult id (stripScreenshot name (dispatch name input)))
  | _ => none

/-- The per-block loop of one `run` iteration: print/check each text block
for auto-finish, dispatch each tool-use block (returning right away on
`finish_task`), and collect tool results. -/
def processBlocks (dispatch : String → Params → JVal) :
    List Block → List Block → Sum IterEnd (List Block)
  | [], acc => .inr acc.reverse
  | .text s :: rest, acc =>
    if shouldAutoFinishFromText s then .inl (.autoFin (truncateContent (pyStrip s) 800))
    else processBlocks dispatch rest acc
  | .toolUse id name input :: rest, acc =>
    let result := dispatch name input
    if name == "finish_task" then .inl (.finTask result)
    else processBlocks dispatch rest (.toolResult id (stripScreenshot name result) :: acc)
  | .toolResult _ _ :: rest, acc => processBlocks dispatch rest acc

/-- The run parameters of `core.models.AgentConfig` that the embedded loop
reads (model id, paths, headless flag and temperature do not affect the
control flow and are omitted). -/
structure AgentConfig where
  task : String
  maxIterations : Nat
  confirmActions : Bool
  historyWindow : Int

/-- How a `run` invocation ends. -/
inductive RunOutcome where
  | autoFinished (iteration : Nat) (summary : String)
  | finishedTool (iteration : Nat) (result : JVal)
  | endTurn (iteration : Nat)
  | maxedOut

/-- The operator-facing line logged for each terminal outcome of `run`. -/
def outcomeLog : RunOutcome → String
  | .autoFinished _ _ => "=== ЗАДАЧА ЗАВЕРШЕНА (по тексту агента) ==="
  | .finishedTool _ _ => "Агент завершил задачу через finish_task."
  | .endTurn _ => "Агент завершил разговор."
  | .maxedOut => "Max iterations reached without explicit completion."

/-- The iteration loop of `BrowserAgent.run`, counting down the remaining
iteration budget (`fuel`) while tracking `self.summary`, the conversation and
the current iteration number.  `dispatch` abstracts `_dispatch_tool`,
`sumFn` abstracts `_summarize_history`, and `script` is the completion
service (iteration number to response). -/
def runAux (dispatch : String → Params → JVal) (sumFn : List Msg → String → String)
    (script : Nat → Response) (hw : Int) :
    Nat → String → List Msg → Nat → RunOutcome
  | 0, _, _, _ => .maxedOut
  | fuel + 1, summary, messages, i =>
    let resp := script i
    let messages2 := messages ++ [⟨"assistant", .blocks (serializeBlocks resp.content)⟩]
    match processBlocks dispatch resp.content [] with
    | .inl (.autoFin s) => .autoFinished i s
    | .inl (.finTask r) => .finishedTool i r
    | .inr toolResults =>
      if toolResults.isEmpty == false then
        let p := applyHistoryWindow hw sumFn summary
          (messages2 ++ [⟨"user", .blocks toolResults⟩])
        runAux dispatch sumFn script hw fuel p.2 p.1 (i + 1)
      else if resp.stop == "end_turn" then .endTurn i
      else
        let p := applyHistoryWindow hw sumFn summary messages2
        runAux dispatch sumFn script hw fuel p.2 p.1 (i + 1)

/-- Embeds `BrowserAgent.run`: seed the conversation with the task and loop
for at most `maxIterations` iterations. -/
def run (dispatch : String → Params → JVal) (sumFn : List Msg → String → String)
    (script : Nat → Response) (cfg : AgentConfig) : RunOutcome :=
  runAux dispatch sumFn script cfg.historyWindow cfg.maxIterations "" [⟨"user", .str cfg.task⟩] 1

/-- Does this block trigger the auto-finish heuristic? -/
def blockAutoFin : Block → Bool
  | .text s => shouldAutoFinishFromText s
  | _ => false

/-- Is this block a `finish_task` invocation? -/
def blockFinish : Block → Bool
  | .toolUse _ name _ => name == "finish_task"
  | _ => false

/-- Does the response contain a `finish_task` tool invocation? -/
def containsFinishTask (content : List Block) : Bool :=
  content.any blockFinish

/-- A response on which one `run` iteration neither returns nor breaks: no
auto-finish text, no `finish_task` invocation, and either some tool ran or
the stop reason is not `end_turn`. -/
def stepContinues (resp : Response) : Bool :=
  resp.content.all (fun b => !blockAutoFin b && !blockFinish b) &&
  (resp.content.any blockIsToolUse || resp.stop != "end_turn")

/-! Concrete runs of the embedded operations, used to evaluate the theorems
below on explicit inputs. -/

/-- A five-turn conversation in the shape `run` builds: task, then two
assistant tool calls each followed by its tool result. -/
def exTask : Msg := ⟨"user", .str "add a T-shirt to the cart"⟩

def exA1 : Msg := ⟨"assistant", .blocks [.toolUse "t1" "navigate_url" [("url", .str "shop.example")]]⟩

def exR1 : Msg := ⟨"user", .blocks [.toolResult "t1" .null]⟩

def exA2 : Msg := ⟨"assistant", .blocks [.toolUse "t2" "analyze_page" []]⟩

def exR2 : Msg := ⟨"user", .blocks [.toolResult "t2" .null]⟩

def exConversation : List Msg := [exTask, exA1, exR1, exA2, exR2]

/-- A dispatch oracle that returns `null` for every call. -/
def exDispatch : String → Params → JVal := fun _ _ => .null

/-- A summarizer oracle that keeps the prior summary. -/
def exSum : List Msg → String → String := fun _ s => s

/-- A completion service that immediately invokes `finish_task`. -/
def exFinishScript : Nat → Response :=
  fun _ => ⟨[.toolUse "t1" "finish_task" [("summary", .str "item added")]], "tool_use"⟩

def exCfgFinish : AgentConfig := ⟨"add a T-shirt to the cart", 50, false, 7⟩

/-- A completion service that keeps issuing a navigation tool call forever. -/
def exLoopScript : Nat → Response :=
  fun _ => ⟨[.toolUse "t1" "navigate_url" [("url", .str "shop.example")]], "tool_use"⟩

def exCfgLoop : AgentConfig := ⟨"add a T-shirt to the cart", 2, false, 7⟩

/-- An element whose text, aria-label, placeholder and href are all empty. -/
def exEmptyElement : DistilledElement :=
  { id := 0, agent_id := "1700000000000-0", tag := "button", role := none,
    input_type := none, text := "", placeholder := none, aria_label := none,
    href := none, location := "10x20" }

/-- A page on which the stable marker of `exEmptyElement` is gone and the
re-distillation script itself raises. -/
def exEnvGone : PageEnv :=
  { markerCount := fun _ => 0, analyzeNodes := .error "Execution context was destroyed",
    stamp := "1700000000001", clickMarker := fun _ => none, clickByText := fun _ => none,
    url := "https://shop.example/cart", title := "Cart" }

/-- A page with two candidate nodes, the second invisible. -/
def exNodes : List PageNode :=
  [{ visible := true, tag := "button", role := none, inputType := none,
     rawText := " Add to cart ", placeholder := none, ariaLabel := none,
     href := none, location := "10x20" },
   { visible := false, tag := "a", role := none, inputType := none,
     rawText := "hidden link", placeholder := none, ariaLabel := none,
     href := some "https://shop.example/x", location := "0x0" },
   { visible := true, tag := "input", role := none, inputType := some "text",
     rawText := "", placeholder := some "Search", ariaLabel := none,
     href := none, location := "30x40" }]

/-- A page whose distillation succeeds on `exNodes`. -/
def exEnvOk : PageEnv :=
  { markerCount := fun _ => 1, analyzeNodes := .ok exNodes,
    stamp := "1700000000002", clickMarker := fun _ => none, clickByText := fun _ => none,
    url := "https://shop.example", title := "Shop" }

/-- A page on which every stable marker is gone but re-distillation works. -/
def exEnvGoneOk : PageEnv :=
  { markerCount := fun _ => 0, analyzeNodes := .ok exNodes,
    stamp := "1700000000003", clickMarker := fun _ => none, clickByText := fun _ => none,
    url := "https://shop.example/cart", title := "Cart" }

/-! Shared lemmas. -/

/-- The gate never fires for an action that is neither of the two click
kinds. -/
theorem isPD_not_click (c : Bool) (els : List DistilledElement) (name : String)
    (params : Params) (h1 : name ≠ "click_element") (h2 : name ≠ "click_text") :
    isPotentiallyDestructive c els name params = false := by
  cases c
  · rfl
  · unfold isPotentiallyDestructive
    simp [h1, h2]

/-- Unlisted tool names fall through the whole dispatch chain to the bare
error dict. -/
theorem dispatchChain_unknown (exec : String → Params → JVal) (name : String)
    (params : Params) (h : name ∉ knownToolNames) :
    dispatchChain exec name params
      = .obj [("error", .str ("Unknown tool \x27" ++ name ++ "\x27"))] := by
  simp only [knownToolNames, List.mem_cons, List.not_mem_nil, or_false] at h
  push_neg at h
  obtain ⟨h1, h2, h3, h4, h5, h6, h7, h8, h9, h10, h11, h12, h13, h14, h15, h16,
    h17, h18, h19⟩ := h
  simp [dispatchChain, h1, h2, h3, h4, h5, h6, h7, h8, h9, h10, h11, h12, h13,
    h14, h15, h16, h17, h18, h19]

/-! Claim theorems. -/

/-- C4: the explicit-completion heuristic fires exactly when the lowercased
text contains one of the whitelisted affirmative Russian completion phrases;
in particular every text containing no whitelist phrase — any hedged or
speculative phrasing — yields `false`. -/
theorem auto_finish_whitelist :
    (∀ text : String,
      shouldAutoFinishFromText text = true ↔
        ∃ m ∈ finishMarkers, containsSub (pyLower text) m = true)
    ∧ shouldAutoFinishFromText "Задача выполнена, оплату не производил." = true
    ∧ shouldAutoFinishFromText
        "Это может указывать на то, что цель почти достигнута." = false := by
  refine ⟨?_, by decide, by decide⟩
  intro text
  unfold shouldAutoFinishFromText
  by_cases h : text = ""
  · subst h; decide
  · simp [h, List.any_eq_true]

/-- C6: if the summarization call raises or returns empty text, the prior
summary is returned unchanged. -/
theorem summarize_failure_keeps_prior :
    (∀ prior, summarizeHistory none prior = prior)
    ∧ (∀ content prior,
        pyStrip (String.intercalate "\n" (textParts content)) = "" →
        summarizeHistory (some content) prior = prior) := by
  constructor
  · intro prior; rfl
  · intro content prior h
    unfold summarizeHistory
    simp [h]

/-- Witness for C6 at a concrete failing and a concrete empty-text response. -/
theorem summarize_failure_keeps_prior_witness :
    (pyStrip (String.intercalate "\n" (textParts [Block.text "  ", Block.toolUse "t" "x" []])) = ""
      ∧ summarizeHistory (some [Block.text "  ", Block.toolUse "t" "x" []])
          "оплату не производить" = "оплату не производить")
    ∧ summarizeHistory none "оплату не производить" = "оплату не производить" :=
  ⟨⟨by decide, summarize_failure_keeps_prior.2 _ _ (by decide)⟩,
    summarize_failure_keeps_prior.1 _⟩

/-- C3: the destructive-action gate fires only for `click_element` and
`click_text` and only with confirmation mode on; any click whose derived
label contains "checkout" or "оплатить" is gated, while a click labeled
"next page" is not. -/
theorem destructive_gate_spec :
    (∀ els name params, isPotentiallyDestructive false els name params = false)
    ∧ (∀ els name params, name ≠ "click_element" → name ≠ "click_text" →
        isPotentiallyDestructive true els name params = false)
    ∧ (∀ els params t, pget params "text" = some (PVal.str t) →
        (containsSub (pyLower t) "checkout" = true ∨
         containsSub (pyLower t) "оплатить" = true) →
        isPotentiallyDestructive true els "click_text" params = true)
    ∧ (∀ els params tid el, parseIntParam params "element_id" = some tid →
        els.find? (fun e => e.id == tid) = some el →
        (containsSub (clickElementLabel el) "checkout" = true ∨
         containsSub (clickElementLabel el) "оплатить" = true) →
        isPotentiallyDestructive true els "click_element" params = true)
    ∧ (∀ els, isPotentiallyDestructive true els "click_text"
        [("text", PVal.str "next page")] = false) := by
  refine ⟨fun els name params => rfl,
          fun els name params h1 h2 => isPD_not_click true els name params h1 h2,
          ?_, ?_, fun els => rfl⟩
  · intro els params t hget hkw
    have hlab : (pyLower t == "") = false := by
      cases hbe : pyLower t == ""
      · rfl
      · exfalso
        have he : pyLower t = "" := eq_of_beq hbe
        rcases hkw with hk | hk <;> rw [he] at hk <;> exact absurd hk (by decide)
    have hany : dangerousKeywords.any (fun kw => containsSub (pyLower t) kw) = true := by
      rcases hkw with hk | hk
      · exact List.any_eq_true.mpr ⟨"checkout", by decide, hk⟩
      · exact List.any_eq_true.mpr ⟨"оплатить", by decide, hk⟩
    simp [isPotentiallyDestructive, hget, pyOrStr, hlab, hany]
  · intro els params tid el hid hfind hkw
    have hlab : (clickElementLabel el == "") = false := by
      cases hbe : clickElementLabel el == ""
      · rfl
      · exfalso
        have he : clickElementLabel el = "" := eq_of_beq hbe
        rcases hkw with hk | hk <;> rw [he] at hk <;> exact absurd hk (by decide)
    have hany : dangerousKeywords.any (fun kw => containsSub (clickElementLabel el) kw) = true := by
      rcases hkw with hk | hk
      · exact List.any_eq_true.mpr ⟨"checkout", by decide, hk⟩
      · exact List.any_eq_true.mpr ⟨"оплатить", by decide, hk⟩
    simp [isPotentiallyDestructive, hid, hfind, hlab, hany]

/-- Witness for C3 at a concrete gated click-by-text. -/
theorem destructive_gate_spec_witness :
    (pget [("text", PVal.str "Перейти к оплате: оплатить заказ")] "text"
        = some (PVal.str "Перейти к оплате: оплатить заказ"))
    ∧ containsSub (pyLower "Перейти к оплате: оплатить заказ") "оплатить" = true
    ∧ isPotentiallyDestructive true [] "click_text"
        [("text", PVal.str "Перейти к оплате: оплатить заказ")] = true :=
  ⟨rfl, by decide,
    destructive_gate_spec.2.2.1 [] _ _ rfl (Or.inr (by decide))⟩

/-- C9 counterexample: for an element whose text, aria-label, placeholder and
href are all empty, the derived label is the three-space join `"   "`, not the
empty string (the join inserts separators before lowercasing); the gate still
returns `false` for it. -/
theorem ungated_click_counterexample :
    clickElementLabel exEmptyElement = "   "
    ∧ "   " ≠ ""
    ∧ isPotentiallyDestructive true [exEmptyElement] "click_element"
        [("element_id", PVal.int 0)] = false := by
  refine ⟨by decide, by decide, by decide⟩

/-- C9 (amended): with confirmation mode on, a `click_element` whose id is
absent from the last distillation, or whose resolved element carries no
textual signal at all, is never gated: the gate returns `false` (the derived
label — empty in the first case, all-whitespace in the second — matches no
destructive keyword) and dispatch runs the click with no confirmation
prompt. -/
theorem ungated_click_amended (els : List DistilledElement) (ans : String)
    (exec : String → Params → JVal) (params : Params) (tid : Int)
    (hid : parseIntParam params "element_id" = some tid)
    (hcase : els.find? (fun el => el.id == tid) = none
      ∨ ∃ el, els.find? (fun el => el.id == tid) = some el
          ∧ el.text = "" ∧ el.aria_label.getD "" = ""
          ∧ el.placeholder.getD "" = "" ∧ el.href.getD "" = "") :
    isPotentiallyDestructive true els "click_element" params = false
    ∧ dispatchTool true els ans exec "click_element" params
        = exec "click_element" params := by
  have hpd : isPotentiallyDestructive true els "click_element" params = false := by
    rcases hcase with hnone | ⟨el, hfind, ht, ha, hp, hh⟩
    · simp [isPotentiallyDestructive, hid, hnone]
    · have hlab : clickElementLabel el = "   " := by
        unfold clickElementLabel
        rw [ht, ha, hp, hh]
        decide
      simp [isPotentiallyDestructive, hid, hfind, hlab]
      decide
  refine ⟨hpd, ?_⟩
  unfold dispatchTool
  rw [hpd]
  rfl

/-- Witness for C9 (amended) at a concrete signal-less element. -/
theorem ungated_click_amended_witness :
    (parseIntParam [("element_id", PVal.int 0)] "element_id" = some 0)
    ∧ ([exEmptyElement].find? (fun el => el.id == (0 : Int)) = some exEmptyElement)
    ∧ isPotentiallyDestructive true [exEmptyElement] "click_element"
        [("element_id", PVal.int 0)] = false
    ∧ dispatchTool true [exEmptyElement] "" exDispatch "click_element"
        [("element_id", PVal.int 0)]
        = exDispatch "click_element" [("element_id", PVal.int 0)] := by
  have h := ungated_click_amended [exEmptyElement] "" exDispatch
    [("element_id", PVal.int 0)] 0 rfl
    (Or.inr ⟨exEmptyElement, rfl, rfl, rfl, rfl, rfl⟩)
  exact ⟨rfl, rfl, h.1, h.2⟩

/-- C8 counterexample: the dict returned for an unknown tool name carries no
`success` key at all (unlike every `_result` envelope), so it is not of the
uniform envelope shape the claim asserts. -/
theorem unknown_tool_counterexample :
    jget (dispatchTool false [] "" exDispatch "bogus_tool" []) "success" = none
    ∧ jget (dispatchTool false [] "" exDispatch "bogus_tool" []) "error"
        = some (.str "Unknown tool \x27bogus_tool\x27")
    ∧ jget (mkResult false "bogus_tool" "msg" none none none none) "success"
        = some (.bool false) :=
  ⟨rfl, rfl, rfl⟩

/-- C8 (amended): for a tool name outside the dispatch table, `_dispatch_tool`
returns the bare `{"error": "Unknown tool '<name>'"}` dict — its `error`
field is populated but it has no `success` flag — and, at the loop level,
such an invocation is fed back as a tool result and never terminates the
iteration. -/
theorem unknown_tool_amended (confirm : Bool) (els : List DistilledElement)
    (ans : String) (exec : String → Params → JVal) (name : String)
    (params : Params) (id : String) (stop : String)
    (h : name ∉ knownToolNames) :
    dispatchTool confirm els ans exec name params
      = .obj [("error", .str ("Unknown tool \x27" ++ name ++ "\x27"))]
    ∧ jget (dispatchTool confirm els ans exec name params) "error"
      = some (.str ("Unknown tool \x27" ++ name ++ "\x27"))
    ∧ jget (dispatchTool confirm els ans exec name params) "success" = none
    ∧ stepContinues ⟨[.toolUse id name params], stop⟩ = true := by
  have h1 : name ≠ "click_element" := fun e => h (by rw [e]; decide)
  have h2 : name ≠ "click_text" := fun e => h (by rw [e]; decide)
  have hft : name ≠ "finish_task" := fun e => h (by rw [e]; decide)
  have hchain := dispatchChain_unknown exec name params h
  have hdt : dispatchTool confirm els ans exec name params
      = dispatchChain exec name params := by
    unfold dispatchTool
    rw [isPD_not_click confirm els name params h1 h2]
    rfl
  refine ⟨hdt.trans hchain, ?_, ?_, ?_⟩
  · rw [hdt, hchain]; rfl
  · rw [hdt, hchain]; rfl
  · simp [stepContinues, blockAutoFin, blockFinish, blockIsToolUse, hft]

/-- Witness for C8 (amended) at a concrete unknown name. -/
theorem unknown_tool_amended_witness :
    ("bogus_tool" ∉ knownToolNames)
    ∧ dispatchTool false [] "" exDispatch "bogus_tool" []
        = .obj [("error", .str "Unknown tool \x27bogus_tool\x27")]
    ∧ stepContinues ⟨[.toolUse "t9" "bogus_tool" []], "tool_use"⟩ = true := by
  have h := unknown_tool_amended false [] "" exDispatch "bogus_tool" [] "t9"
    "tool_use" (by decide)
  exact ⟨by decide, h.1, h.2.2.2⟩

/-- The structural-repair pass only removes turns: its output is a sublist of
its input. -/
theorem historyClean_sublist (l : List Msg) :
    ∀ prev, List.Sublist (historyClean l prev) l := by
  induction l with
  | nil => intro prev; simp [historyClean]
  | cons m ms ih =>
    intro prev
    unfold historyClean
    by_cases hm : isToolResultMsg m = true
    · rw [if_pos hm]
      cases prev with
      | none => exact (ih none).cons m
      | some p =>
        dsimp only
        by_cases hp : (p.role == "assistant" && msgHasToolUse p) = true
        · rw [if_pos hp]; exact (ih (some m)).cons₂ m
        · rw [if_neg hp]; exact (ih (some p)).cons m
    · rw [if_neg hm]
      exact (ih (some m)).cons₂ m

/-- The summary turn is not a tool-result turn. -/
theorem isToolResultMsg_mkSummaryMsg (s : String) :
    isToolResultMsg (mkSummaryMsg s) = false := rfl

/-- The pruning branch of `_apply_history_window`, written out: when strictly
more than `max 3 window` turns follow the first one, the result is the repair
pass applied to first-turn, summary-turn, recent-turns. -/
theorem applyHistoryWindow_eq (hw : Int) (sumFn : List Msg → String → String)
    (summary : String) (first : Msg) (rest : List Msg)
    (hlen : (max 3 hw).toNat < rest.length) :
    applyHistoryWindow hw sumFn summary (first :: rest)
      = (historyClean
           (first :: mkSummaryMsg
              (sumFn (rest.take (rest.length - (max 3 hw).toNat)) summary)
             :: rest.drop (rest.length - (max 3 hw).toNat)) none,
         sumFn (rest.take (rest.length - (max 3 hw).toNat)) summary) := by
  have h1 : ¬ ((first :: rest).length ≤ (max 3 hw).toNat) := by
    simp only [List.length_cons]; omega
  have h2 : ¬ (rest.length ≤ (max 3 hw).toNat) := by omega
  simp only [applyHistoryWindow]
  rw [if_neg h1, if_neg h2]

/-- C1 counterexample: with `history_window = 3` and the five-turn
conversation `exConversation` (task, tool call, tool result, tool call, tool
result), one application of the history manager yields 4 turns, not the
claimed `1 (task) + 1 (summary) + 3 (window)` = 5: the oldest retained turn
is a tool result whose matching tool call was summarized away, so the repair
pass drops it. -/
theorem history_window_counterexample :
    exConversation.length > (max 3 (3 : Int)).toNat
    ∧ (applyHistoryWindow 3 exSum "" exConversation).1.length
        ≠ 1 + 1 + (max 3 (3 : Int)).toNat := by
  exact ⟨by decide, by decide⟩

/-- C1 (amended): whenever strictly more than `max(3, history_window) + 1`
turns are present, one application of `_apply_history_window` produces the
unchanged first turn (the original task, verbatim), exactly one summary turn,
and a sublist of the last `max(3, history_window)` turns (the repair pass may
drop leading tool-result turns whose tool call was summarized away); hence
the length is bounded by `1 + 1 + window`, and under repeated application it
converges to at most that bound rather than exactly to it. -/
theorem history_window_amended (hw : Int) (sumFn : List Msg → String → String)
    (summary : String) (first : Msg) (rest : List Msg)
    (hfirst : isToolResultMsg first = false)
    (hlen : (max 3 hw).toNat + 1 ≤ rest.length) :
    ∃ tail,
      (applyHistoryWindow hw sumFn summary (first :: rest)).1
        = first :: mkSummaryMsg
            (sumFn (rest.take (rest.length - (max 3 hw).toNat)) summary) :: tail
      ∧ List.Sublist tail (rest.drop (rest.length - (max 3 hw).toNat))
      ∧ (applyHistoryWindow hw sumFn summary (first :: rest)).1.length
          ≤ 2 + (max 3 hw).toNat := by
  have hE := applyHistoryWindow_eq hw sumFn summary first rest (by omega)
  have hstep : (applyHistoryWindow hw sumFn summary (first :: rest)).1
      = first :: mkSummaryMsg
          (sumFn (rest.take (rest.length - (max 3 hw).toNat)) summary)
        :: historyClean (rest.drop (rest.length - (max 3 hw).toNat))
            (some (mkSummaryMsg
              (sumFn (rest.take (rest.length - (max 3 hw).toNat)) summary))) := by
    rw [hE]
    simp [historyClean, hfirst, isToolResultMsg_mkSummaryMsg]
  refine ⟨_, hstep, historyClean_sublist _ _, ?_⟩
  rw [hstep]
  have hsub := (historyClean_sublist
    (rest.drop (rest.length - (max 3 hw).toNat))
    (some (mkSummaryMsg
      (sumFn (rest.take (rest.length - (max 3 hw).toNat)) summary)))).length_le
  have hdrop : (rest.drop (rest.length - (max 3 hw).toNat)).length
      = (max 3 hw).toNat := by
    rw [List.length_drop]; omega
  simp only [List.length_cons]
  omega

/-- Witness for C1 (amended) on the concrete five-turn conversation. -/
theorem history_window_amended_witness :
    (isToolResultMsg exTask = false)
    ∧ ((max 3 (3 : Int)).toNat + 1 ≤ [exA1, exR1, exA2, exR2].length)
    ∧ (∃ tail,
        (applyHistoryWindow 3 exSum "" (exTask :: [exA1, exR1, exA2, exR2])).1
          = exTask :: mkSummaryMsg
              (exSum ([exA1, exR1, exA2, exR2].take
                ([exA1, exR1, exA2, exR2].length - (max 3 (3 : Int)).toNat)) "")
            :: tail
        ∧ List.Sublist tail ([exA1, exR1, exA2, exR2].drop
            ([exA1, exR1, exA2, exR2].length - (max 3 (3 : Int)).toNat))
        ∧ (applyHistoryWindow 3 exSum "" (exTask :: [exA1, exR1, exA2, exR2])).1.length
            ≤ 2 + (max 3 (3 : Int)).toNat) :=
  ⟨rfl, by decide,
    history_window_amended 3 exSum "" exTask [exA1, exR1, exA2, exR2] rfl (by decide)⟩

/-- C5 counterexample: for an id whose stable marker is gone and whose
captured text is empty, `click_element` does not always return
`ElementNotFound` — when the automatic re-analysis itself fails (here the
page evaluation raises), the envelope is typed `ClickError` instead. -/
theorem click_missing_counterexample :
    getElement [exEmptyElement] 0 = some exEmptyElement
    ∧ pyStrip exEmptyElement.text = ""
    ∧ exEnvGone.markerCount exEmptyElement.agent_id = 0
    ∧ jget (clickElement exEnvGone [exEmptyElement] 0).1 "error_type"
        = some (.str "ClickError")
    ∧ "ClickError" ≠ "ElementNotFound" :=
  ⟨rfl, rfl, rfl, rfl, by decide⟩

/-- C5 (amended): for every element id whose stable marker is no longer on
the page and whose captured text is empty, `click_element` returns a failure
envelope with a suggestion, performs no refreshed-id or visible-text fallback
click and clicks nothing (the only browser effect is the automatic
re-analysis); the `error_type` is `ElementNotFound` when that re-analysis
succeeds and `ClickError` when it fails. -/
theorem click_missing_empty_amended (env : PageEnv) (st : List DistilledElement)
    (elementId : Int) (element : DistilledElement)
    (hfind : getElement st elementId = some element)
    (htext : pyStrip element.text = "")
    (hgone : env.markerCount element.agent_id = 0) :
    jget (clickElement env st elementId).1 "success" = some (.bool false)
    ∧ (∃ s, jget (clickElement env st elementId).1 "suggestion" = some (.str s))
    ∧ (clickElement env st elementId).2.2 = [Eff.analyzeCall]
    ∧ jget (clickElement env st elementId).1 "error_type"
        = some (.str (match env.analyzeNodes with
            | .ok _ => "ElementNotFound"
            | .error _ => "ClickError")) := by
  cases henv : env.analyzeNodes with
  | error e =>
    have hred : clickElement env st elementId
        = (mkResult false "click_element" "Element disappeared and re-analyze_page() failed"
             (some "ClickError") none
             (some "Try analyze_page() manually and use search_elements()/click_text().")
             none,
           st, [.analyzeCall]) := by
      simp [clickElement, hfind, hgone, analyzePage, henv, jget, jTruthy,
        mkResult, lookupField, jOfOptStr]
    rw [hred]
    exact ⟨rfl, ⟨_, rfl⟩, rfl, rfl⟩
  | ok nodes =>
    have hred : clickElement env st elementId
        = (mkResult false "click_element" "Element disappeared and has no stable text to match"
             (some "ElementNotFound") none
             (some "Run analyze_page() again and choose element by new ID.") none,
           (analyzePage env st "detailed").2, [.analyzeCall]) := by
      simp [clickElement, hfind, hgone, analyzePage, henv, htext, jget, jTruthy,
        mkResult, lookupField, jOfOptStr]
    rw [hred]
    exact ⟨rfl, ⟨_, rfl⟩, rfl, rfl⟩

/-- Witness for C5 (amended): concrete pages exercising the successful
re-analysis path. -/
theorem click_missing_empty_amended_witness :
    (getElement [exEmptyElement] 0 = some exEmptyElement)
    ∧ pyStrip exEmptyElement.text = ""
    ∧ exEnvGoneOk.markerCount exEmptyElement.agent_id = 0
    ∧ (jget (clickElement exEnvGoneOk [exEmptyElement] 0).1 "success" = some (.bool false)
       ∧ (∃ s, jget (clickElement exEnvGoneOk [exEmptyElement] 0).1 "suggestion"
           = some (.str s))
       ∧ (clickElement exEnvGoneOk [exEmptyElement] 0).2.2 = [Eff.analyzeCall]
       ∧ jget (clickElement exEnvGoneOk [exEmptyElement] 0).1 "error_type"
           = some (.str (match exEnvGoneOk.analyzeNodes with
               | .ok _ => "ElementNotFound"
               | .error _ => "ClickError"))) :=
  ⟨rfl, rfl, rfl,
    click_missing_empty_amended exEnvGoneOk [exEmptyElement] 0 exEmptyElement rfl rfl rfl⟩

/-- The distillation script never yields more than `200 - count` further
elements once `count` are already collected. -/
theorem distillNodes_length (stamp : String) (ns : List PageNode) :
    ∀ id count, count ≤ 199 → (distillNodes stamp ns id count).length + count ≤ 200 := by
  induction ns with
  | nil => intro id count h; simp [distillNodes]; omega
  | cons n ns ih =>
    intro id count h
    unfold distillNodes
    by_cases hv : (n.visible == false) = true
    · rw [if_pos hv]
      exact ih id count h
    · rw [if_neg hv]
      by_cases hc : 200 ≤ count + 1
      · rw [if_pos hc]
        simp only [List.length_cons, List.length_nil]
        omega
      · rw [if_neg hc]
        have := ih (id + 1) (count + 1) (by omega)
        simp only [List.length_cons]
        omega

/-- Enumeration preserves length. -/
theorem enumFrom_length (n : Nat) (l : List α) : (enumFrom n l).length = l.length := by
  induction l generalizing n with
  | nil => rfl
  | cons a as ih => simp [enumFrom, ih]

/-- In the element list built by `analyze_page`, the id at position `k` of an
enumeration starting at `n` is `n + k`. -/
theorem enumFrom_map_mkDistilled_id (raws : List RawDistilled) :
    ∀ (n k : Nat) (hk : k < ((enumFrom n raws).map mkDistilled).length),
      (((enumFrom n raws).map mkDistilled)[k]).id = ((n + k : Nat) : Int) := by
  induction raws with
  | nil => intro n k hk; simp [enumFrom] at hk
  | cons r rs ih =>
    intro n k hk
    cases k with
    | zero => simp [enumFrom, mkDistilled]
    | succ k =>
      have hk' : k < ((enumFrom (n + 1) rs).map mkDistilled).length := by
        simp only [enumFrom, List.map_cons, List.length_cons] at hk
        omega
      have := ih (n + 1) k hk'
      simp only [enumFrom, List.map_cons, List.getElem_cons_succ]
      rw [this]
      congr 1
      omega

/-- On a list whose ids are the consecutive integers starting at `base`,
`find?` by id behaves as positional indexing. -/
theorem find_seq (l : List DistilledElement) :
    ∀ (base : Int),
      (∀ k (hk : k < l.length), (l[k]).id = base + k) →
      ∀ i : Int, l.find? (fun el => el.id == i)
        = if base ≤ i then l[(i - base).toNat]? else none := by
  induction l with
  | nil =>
    intro base h i
    simp
  | cons a t ih =>
    intro base h i
    have ha : a.id = base := by
      have h0 := h 0 (by simp)
      simpa using h0
    have ht : ∀ k (hk : k < t.length), (t[k]).id = (base + 1) + k := by
      intro k hk
      have hkk := h (k + 1) (by simp only [List.length_cons]; omega)
      simp only [List.getElem_cons_succ] at hkk
      rw [hkk]
      push_cast
      ring
    cases hpa : a.id == i with
    | true =>
      have hib : i = base := by
        have := eq_of_beq hpa
        omega
      subst hib
      simp only [List.find?_cons, hpa]
      rw [if_pos (le_refl i)]
      simp
    | false =>
      have hne : i ≠ base := by
        intro e
        rw [e, ha] at hpa
        simp at hpa
      simp only [List.find?_cons, hpa]
      rw [ih (base + 1) ht i]
      by_cases hle : base ≤ i
      · have hlt : base < i := lt_of_le_of_ne hle (Ne.symm hne)
        rw [if_pos (by omega), if_pos hle]
        have hsub : (i - base).toNat = (i - (base + 1)).toNat + 1 := by omega
        rw [hsub, List.getElem?_cons_succ]
      · rw [if_neg (by omega), if_neg hle]

/-- C10: after every successful `analyze_page`, the new `last_elements` holds
at most 200 elements whose ids are exactly the positions 0..N-1 in list
order, and `_get_element i` returns the i-th element precisely when
`0 ≤ i < N`, otherwise nothing. -/
theorem analyze_page_ids (env : PageEnv) (st : List DistilledElement)
    (fmt : String) (nodes : List PageNode)
    (h : env.analyzeNodes = .ok nodes) :
    jget (analyzePage env st fmt).1 "success" = some (.bool true)
    ∧ (analyzePage env st fmt).2.length ≤ 200
    ∧ (∀ k (hk : k < (analyzePage env st fmt).2.length),
        ((analyzePage env st fmt).2[k]).id = (k : Int))
    ∧ (∀ i : Int, getElement (analyzePage env st fmt).2 i
        = if 0 ≤ i then (analyzePage env st fmt).2[i.toNat]? else none) := by
  have hsnd : (analyzePage env st fmt).2
      = (enumFrom 0 (distillNodes env.stamp nodes 0 0)).map mkDistilled := by
    simp [analyzePage, h]
  have hids : ∀ k (hk : k < (analyzePage env st fmt).2.length),
      ((analyzePage env st fmt).2[k]).id = (k : Int) := by
    intro k hk
    have hk2 : k < ((enumFrom 0 (distillNodes env.stamp nodes 0 0)).map mkDistilled).length := by
      rw [hsnd] at hk; exact hk
    have := enumFrom_map_mkDistilled_id (distillNodes env.stamp nodes 0 0) 0 k hk2
    simp only [Nat.zero_add] at this
    simp only [hsnd]
    exact this
  refine ⟨?_, ?_, hids, ?_⟩
  · simp [analyzePage, h]
    rfl
  · rw [hsnd, List.length_map, enumFrom_length]
    have := distillNodes_length env.stamp nodes 0 0 (by omega)
    omega
  · intro i
    unfold getElement
    have hbase : ∀ k (hk : k < (analyzePage env st fmt).2.length),
        (((analyzePage env st fmt).2)[k]).id = (0 : Int) + k := by
      intro k hk
      rw [hids k hk]
      omega
    rw [find_seq (analyzePage env st fmt).2 0 hbase i]
    by_cases hle : (0 : Int) ≤ i
    · rw [if_pos hle, if_pos hle, Int.sub_zero]
    · rw [if_neg hle, if_neg hle]

/-- Witness for C10 on a concrete three-node page (one node invisible). -/
theorem analyze_page_ids_witness :
    (exEnvOk.analyzeNodes = .ok exNodes)
    ∧ (jget (analyzePage exEnvOk [] "concise").1 "success" = some (.bool true)
       ∧ (analyzePage exEnvOk [] "concise").2.length ≤ 200
       ∧ (∀ k (hk : k < (analyzePage exEnvOk [] "concise").2.length),
           ((analyzePage exEnvOk [] "concise").2[k]).id = (k : Int))
       ∧ (∀ i : Int, getElement (analyzePage exEnvOk [] "concise").2 i
           = if 0 ≤ i then (analyzePage exEnvOk [] "concise").2[i.toNat]? else none)) :=
  ⟨rfl, analyze_page_ids exEnvOk [] "concise" exNodes rfl⟩

/-- When no block of a response triggers auto-finish or `finish_task`, the
block loop runs to the end and collects one tool result per tool-use block. -/
theorem processBlocks_no_term (D : String → Params → JVal) (blocks : List Block) :
    ∀ acc, (∀ b ∈ blocks, blockAutoFin b = false ∧ blockFinish b = false) →
      processBlocks D blocks acc = .inr (acc.reverse ++ blocks.filterMap (toolResOf D)) := by
  induction blocks with
  | nil => intro acc h; simp [processBlocks, toolResOf]
  | cons b bs ih =>
    intro acc h
    have hb := h b (List.mem_cons_self b bs)
    have hbs : ∀ x ∈ bs, blockAutoFin x = false ∧ blockFinish x = false :=
      fun x hx => h x (List.mem_cons_of_mem b hx)
    cases b with
    | text s =>
      have h1 : shouldAutoFinishFromText s = false := by simpa [blockAutoFin] using hb.1
      simp [processBlocks, h1, List.filterMap_cons, toolResOf, ih acc hbs]
    | toolUse id name input =>
      have h2 : (name == "finish_task") = false := by simpa [blockFinish] using hb.2
      simp [processBlocks, h2, List.filterMap_cons, toolResOf, ih _ hbs]
    | toolResult id payload =>
      simp [processBlocks, List.filterMap_cons, toolResOf, ih acc hbs]

/-- If a response yields no tool results, it contained no tool-use block. -/
theorem filterMap_toolRes_nil (D : String → Params → JVal) (blocks : List Block)
    (h : blocks.filterMap (toolResOf D) = []) :
    blocks.any blockIsToolUse = false := by
  induction blocks with
  | nil => rfl
  | cons b bs ih =>
    cases b with
    | toolUse id name input => simp [toolResOf, List.filterMap_cons] at h
    | text s =>
      simp only [List.filterMap_cons, toolResOf] at h
      simp [blockIsToolUse, ih h]
    | toolResult id payload =>
      simp only [List.filterMap_cons, toolResOf] at h
      simp [blockIsToolUse, ih h]

/-- A response containing a `finish_task` invocation makes the block loop
end the run at this iteration: either through an earlier auto-finish text
block, or through the `finish_task` branch itself. -/
theorem processBlocks_finish (D : String → Params → JVal) :
    ∀ (blocks : List Block), blocks.any blockFinish = true →
      ∀ acc, (∃ s, processBlocks D blocks acc = .inl (.autoFin s))
        ∨ (∃ r, processBlocks D blocks acc = .inl (.finTask r)) := by
  intro blocks
  induction blocks with
  | nil => intro h; simp at h
  | cons b bs ih =>
    intro h acc
    cases b with
    | text s =>
      by_cases haf : shouldAutoFinishFromText s = true
      · left
        exact ⟨truncateContent (pyStrip s) 800, by simp [processBlocks, haf]⟩
      · have h' : bs.any blockFinish = true := by
          simpa [blockFinish] using h
        have := ih h' acc
        simpa [processBlocks, haf] using this
    | toolUse id name input =>
      by_cases hft : (name == "finish_task") = true
      · right
        exact ⟨D name input, by simp [processBlocks, hft]⟩
      · have h' : bs.any blockFinish = true := by
          simp only [List.any_cons, blockFinish, Bool.or_eq_true] at h
          rcases h with h | h
          · exact absurd h hft
          · exact h
        have := ih h' (Block.toolResult id (stripScreenshot name (D name input)) :: acc)
        simpa [processBlocks, hft] using this
    | toolResult id payload =>
      have h' : bs.any blockFinish = true := by simpa [blockFinish] using h
      have := ih h' acc
      simpa [processBlocks] using this

/-- One continuing iteration of the loop: it consumes one unit of the
iteration budget and moves to iteration `i + 1` with updated conversation
state. -/
theorem runAux_step (D : String → Params → JVal) (S : List Msg → String → String)
    (script : Nat → Response) (hw : Int) (i fuel : Nat) (summary : String)
    (messages : List Msg) (h : stepContinues (script i) = true) :
    ∃ s2 m2, runAux D S script hw (fuel + 1) summary messages i
      = runAux D S script hw fuel s2 m2 (i + 1) := by
  have hsplit : ((script i).content.all (fun b => !blockAutoFin b && !blockFinish b) = true)
      ∧ ((script i).content.any blockIsToolUse || (script i).stop != "end_turn") = true := by
    have h2 := h
    unfold stepContinues at h2
    rw [Bool.and_eq_true] at h2
    exact h2
  have hall : ∀ b ∈ (script i).content, blockAutoFin b = false ∧ blockFinish b = false := by
    intro b hb
    have hb2 := List.all_eq_true.mp hsplit.1 b hb
    rw [Bool.and_eq_true] at hb2
    exact ⟨by simpa using hb2.1, by simpa using hb2.2⟩
  have hpb : processBlocks D (script i).content []
      = .inr ((script i).content.filterMap (toolResOf D)) := by
    simpa using processBlocks_no_term D (script i).content [] hall
  by_cases hemp : (script i).content.filterMap (toolResOf D) = []
  · have hnotool : (script i).content.any blockIsToolUse = false :=
      filterMap_toolRes_nil D _ hemp
    have hstop : ((script i).stop == "end_turn") = false := by
      have h2 := hsplit.2
      rw [hnotool] at h2
      simp only [Bool.false_or] at h2
      simpa [bne] using h2
    refine ⟨(applyHistoryWindow hw S summary
        (messages ++ [⟨"assistant", .blocks (serializeBlocks (script i).content)⟩])).2,
      (applyHistoryWindow hw S summary
        (messages ++ [⟨"assistant", .blocks (serializeBlocks (script i).content)⟩])).1, ?_⟩
    simp [runAux, hpb, hemp, hstop]
  · have hne : ((script i).content.filterMap (toolResOf D)).isEmpty = false := by
      cases hfm : (script i).content.filterMap (toolResOf D) with
      | nil => exact absurd hfm hemp
      | cons x xs => rfl
    refine ⟨(applyHistoryWindow hw S summary
        ((messages ++ [⟨"assistant", .blocks (serializeBlocks (script i).content)⟩])
          ++ [⟨"user", .blocks ((script i).content.filterMap (toolResOf D))⟩])).2,
      (applyHistoryWindow hw S summary
        ((messages ++ [⟨"assistant", .blocks (serializeBlocks (script i).content)⟩])
          ++ [⟨"user", .blocks ((script i).content.filterMap (toolResOf D))⟩])).1, ?_⟩
    simp [runAux, hpb, hne]

/-- Iterating continuing responses: `k` consecutive continuing iterations
starting at iteration `i` consume exactly `k` units of budget and reach
iteration `i + k` in some conversation state. -/
theorem runAux_steps (D : String → Params → JVal) (S : List Msg → String → String)
    (script : Nat → Response) (hw : Int) :
    ∀ (k i fuel : Nat) (summary : String) (messages : List Msg),
      (∀ j, i ≤ j → j < i + k → stepContinues (script j) = true) →
      ∃ s2 m2, runAux D S script hw (k + fuel) summary messages i
        = runAux D S script hw fuel s2 m2 (i + k) := by
  intro k
  induction k with
  | zero =>
    intro i fuel s m h
    exact ⟨s, m, by simp⟩
  | succ k ih =>
    intro i fuel s m h
    obtain ⟨s2, m2, he⟩ := runAux_step D S script hw i (k + fuel) s m
      (h i (le_refl i) (by omega))
    obtain ⟨s3, m3, he2⟩ := ih (i + 1) fuel s2 m2
      (fun j hj1 hj2 => h j (by omega) (by omega))
    refine ⟨s3, m3, ?_⟩
    have harith : (k + 1) + fuel = (k + fuel) + 1 := by omega
    rw [harith, he, he2, show i + 1 + k = i + (k + 1) by omega]

/-- C2: if the completion-service response at iteration `i ≤ maxIterations`
contains a `finish_task` invocation (and the loop reaches iteration `i`, all
earlier iterations being continuing ones), then the run terminates
successfully at iteration `i` — via `finish_task`, or via an auto-finish text
block earlier in the same response — executing no further iterations,
regardless of how large `maxIterations` is. -/
theorem finish_task_terminates (D : String → Params → JVal)
    (S : List Msg → String → String) (script : Nat → Response)
    (cfg : AgentConfig) (i : Nat)
    (h1 : 1 ≤ i) (h2 : i ≤ cfg.maxIterations)
    (hpre : ∀ j, 1 ≤ j → j < i → stepContinues (script j) = true)
    (hft : containsFinishTask (script i).content = true) :
    (∃ r, run D S script cfg = .finishedTool i r)
    ∨ (∃ s, run D S script cfg = .autoFinished i s) := by
  unfold run
  have hsplit : cfg.maxIterations = (i - 1) + (cfg.maxIterations - (i - 1)) := by omega
  obtain ⟨m, hm⟩ : ∃ m, cfg.maxIterations - (i - 1) = m + 1 :=
    ⟨cfg.maxIterations - i, by omega⟩
  obtain ⟨s2, m2, he⟩ := runAux_steps D S script cfg.historyWindow (i - 1) 1
    (cfg.maxIterations - (i - 1)) "" [⟨"user", .str cfg.task⟩]
    (fun j hj1 hj2 => hpre j hj1 (by omega))
  rw [hsplit, he, hm, show 1 + (i - 1) = i by omega]
  rcases processBlocks_finish D (script i).content hft [] with ⟨s', hs⟩ | ⟨r', hr⟩
  · right
    exact ⟨s', by simp [runAux, hs]⟩
  · left
    exact ⟨r', by simp [runAux, hr]⟩

/-- Witness for C2: a `finish_task` on iteration 1 ends a 50-iteration run
at once. -/
theorem finish_task_terminates_witness :
    (1 ≤ 1) ∧ (1 ≤ exCfgFinish.maxIterations)
    ∧ (∀ j, 1 ≤ j → j < 1 → stepContinues (exFinishScript j) = true)
    ∧ containsFinishTask (exFinishScript 1).content = true
    ∧ ((∃ r, run exDispatch exSum exFinishScript exCfgFinish = .finishedTool 1 r)
       ∨ (∃ s, run exDispatch exSum exFinishScript exCfgFinish = .autoFinished 1 s)) := by
  refine ⟨le_refl 1, by decide, ?_, by decide, ?_⟩
  · intro j hj1 hj2
    omega
  · exact finish_task_terminates exDispatch exSum exFinishScript exCfgFinish 1
      (le_refl 1) (by decide) (fun j hj1 hj2 => by omega) (by decide)

/-- C7: a run whose `maxIterations` responses all lack `finish_task`, lack
auto-finish phrases, and do not stop with `end_turn`, ends normally in the
`for`-`else` branch, reporting that the task was not completed.  (The
embedded loop is a total function: this terminal outcome is a normal return,
not an exception.) -/
theorem max_iterations_report (D : String → Params → JVal)
    (S : List Msg → String → String) (script : Nat → Response) (cfg : AgentConfig)
    (h : ∀ j, 1 ≤ j → j ≤ cfg.maxIterations →
      containsFinishTask (script j).content = false
      ∧ (∀ b ∈ (script j).content, blockAutoFin b = false)
      ∧ (script j).stop ≠ "end_turn") :
    run D S script cfg = .maxedOut
    ∧ outcomeLog .maxedOut
        = "Max iterations reached without explicit completion." := by
  refine ⟨?_, rfl⟩
  unfold run
  have hsc : ∀ j, 1 ≤ j → j < 1 + cfg.maxIterations → stepContinues (script j) = true := by
    intro j hj1 hj2
    obtain ⟨hf, ha, hs⟩ := h j hj1 (by omega)
    have hall : (script j).content.all (fun b => !blockAutoFin b && !blockFinish b) = true := by
      rw [List.all_eq_true]
      intro b hb
      have h1 := ha b hb
      have h2 : blockFinish b = false := by
        unfold containsFinishTask at hf
        have := List.any_eq_false.mp hf b hb
        simpa using this
      simp [h1, h2]
    have hstop : ((script j).stop != "end_turn") = true := by
      simpa using hs
    unfold stepContinues
    rw [hall, hstop]
    simp
  obtain ⟨s2, m2, he⟩ := runAux_steps D S script cfg.historyWindow cfg.maxIterations
    1 0 "" [⟨"user", .str cfg.task⟩] hsc
  rw [← Nat.add_zero cfg.maxIterations, he]
  rfl

/-- Witness for C7: a two-iteration run of endless navigation calls reports
the max-iterations message. -/
theorem max_iterations_report_witness :
    (∀ j, 1 ≤ j → j ≤ exCfgLoop.maxIterations →
      containsFinishTask (exLoopScript j).content = false
      ∧ (∀ b ∈ (exLoopScript j).content, blockAutoFin b = false)
      ∧ (exLoopScript j).stop ≠ "end_turn")
    ∧ (run exDispatch exSum exLoopScript exCfgLoop = .maxedOut
       ∧ outcomeLog .maxedOut
           = "Max iterations reached without explicit completion.") := by
  have hh : ∀ j, 1 ≤ j → j ≤ exCfgLoop.maxIterations →
      containsFinishTask (exLoopScript j).content = false
      ∧ (∀ b ∈ (exLoopScript j).content, blockAutoFin b = false)
      ∧ (exLoopScript j).stop ≠ "end_turn" := by
    intro j hj1 hj2
    refine ⟨(by decide : containsFinishTask (exLoopScript 0).content = false), ?_,
      (by decide : (exLoopScript 0).stop ≠ "end_turn")⟩
    intro b hb
    simp only [exLoopScript, List.mem_singleton] at hb
    subst hb
    decide
  exact ⟨hh, max_iterations_report exDispatch exSum exLoopScript exCfgLoop hh⟩
